import Mathlib

/-!
# Verification of `src/freeze_alert.py`, function `check_freezing_conditions`

This file is a shallow embedding of the Freeze Event Analyzer of the
FreezeAlert repository (`check_freezing_conditions`, `src/freeze_alert.py`
lines 189-304) together with the Python semantics it relies on:

* temperature extraction `period.get("temperature", 100)` with the one-level
  dict unwrapping `temp.get("value", 100)` (lines 202-206, 218-220, 232-236);
  a comparison `temp <= 32` on a non-numeric value raises `TypeError`, which
  we model with `Except`;
* `datetime.fromisoformat` restricted to the ISO-8601 forms this program's
  data uses (`YYYY-MM-DD[{T,space}HH:MM[:SS]][±HH:MM]`); parse failure is
  `ValueError`.  Exotic forms CPython ≥ 3.11 also accepts (fractional
  seconds, compact dates, other separators) are conservatively rejected;
  no claim depends on them;
* `datetime` subtraction and ordering: mixing an offset-aware and an
  offset-naive datetime raises `TypeError`; `timedelta.days` is floor
  division of the signed second count by 86400;
* Python truthiness of the history fields (`None` and `""` are falsy) and of
  extended-freeze alert keys.

Temperatures are modelled as integers (the spec's data model allows
integer/float; every claim and every concrete datum here is integral).
The analyzer's cursor loop (lines 199-257) advances at least one sample per
iteration, so it is written with an explicit iteration bound equal to the
list length (`scanLoop`), which keeps the definition structurally recursive
and executable by the kernel.  `datetime.now()` is passed in as the naive
timestamp `now` (seconds); the dead local `current_year` (line 193) and the
I/O of `load_alert_history`/`save_alert_history` are external to the
analyzer and are represented by the explicit `History` argument and result.
-/

/-- Decidable equality of `Except` results, for evaluating the analyzer on
concrete inputs. -/
instance {ε α : Type} [DecidableEq ε] [DecidableEq α] : DecidableEq (Except ε α) := fun a b =>
  match a, b with
  | .error x, .error y =>
    if h : x = y then .isTrue (by rw [h]) else .isFalse (by simp [h])
  | .ok x, .ok y =>
    if h : x = y then .isTrue (by rw [h]) else .isFalse (by simp [h])
  | .error _, .ok _ => .isFalse (by simp)
  | .ok _, .error _ => .isFalse (by simp)

namespace FreezeAlert

/-- A JSON-shaped value found in a forecast period's `"temperature"` field.
`num` is a bare number, `objVal v` a dict whose `"value"` key holds `v`,
`objNone` a dict without a `"value"` key, `str` a string, `null` JSON null. -/
inductive TempVal where
  | num (t : Int)
  | objVal (v : TempVal)
  | objNone
  | str (s : String)
  | null
deriving DecidableEq, Repr

/-- A forecast sample (`period` dict): optional `"startTime"` and
`"temperature"` keys (`none` = key absent). -/
structure Period where
  startTime : Option String
  temperature : Option TempVal
deriving DecidableEq, Repr

/-- `temp = period.get("temperature", 100)`; `if isinstance(temp, dict):
temp = temp.get("value", 100)` (lines 202-206). -/
def resolveTemp (p : Period) : TempVal :=
  match p.temperature with
  | none => .num 100
  | some (.objVal v) => v
  | some .objNone => .num 100
  | some t => t

/-- The comparison `temp <= 32` needs a number; on anything else Python
raises `TypeError`.  This extracts the number or that error. -/
def asNumber : TempVal → Except String Int
  | .num t => Except.ok t
  | _ => Except.error "TypeError: unorderable temperature value"

/-- Resolved temperature of a sample, or the `TypeError` its comparison
would raise. -/
def tempE (p : Period) : Except String Int := asNumber (resolveTemp p)

/-! ## The fragment of `datetime` the analyzer uses -/

/-- Gregorian leap-year rule, as `datetime` uses it. -/
def isLeap (y : Nat) : Bool := y % 4 == 0 && (y % 100 != 0 || y % 400 == 0)

/-- Number of days in month `m` of year `y`. -/
def daysInMonth (y m : Nat) : Nat :=
  if m = 2 then (if isLeap y then 29 else 28)
  else if m = 4 ∨ m = 6 ∨ m = 9 ∨ m = 11 then 30
  else 31

/-- Days in a common year strictly before month `m` (1-indexed). -/
def monthOffset (m : Nat) : Nat :=
  [0, 0, 31, 59, 90, 120, 151, 181, 212, 243, 273, 304, 334].getD m 0

/-- Day count of the civil date `y-m-d` from the epoch 0001-01-01. -/
def daysFromCivil (y m d : Nat) : Nat :=
  (y - 1) * 365 + (y - 1) / 4 - (y - 1) / 100 + (y - 1) / 400
    + monthOffset m + (if 2 < m && isLeap y then 1 else 0) + (d - 1)

/-- A `datetime.datetime`: `ts` is the naive wall-clock value in seconds
from the epoch; `utcoffset` is the UTC offset in seconds of an aware
datetime, `none` for a naive one. -/
structure PyDatetime where
  ts : Int
  utcoffset : Option Int
deriving DecidableEq, Repr

/-- Value of a decimal digit character. -/
def digitVal (c : Char) : Option Nat :=
  if c.isDigit then some (c.toNat - 48) else none

/-- Two decimal digits. -/
def twoDigits (a b : Char) : Option Nat := do
  let x ← digitVal a
  let y ← digitVal b
  pure (10 * x + y)

/-- Four decimal digits. -/
def fourDigits (a b c d : Char) : Option Nat := do
  let x ← twoDigits a b
  let y ← twoDigits c d
  pure (100 * x + y)

/-- Parse `HH:MM[:SS]`, returning hour, minute, second and the remaining
characters. -/
def parseHMS : List Char → Option (Nat × Nat × Nat × List Char)
  | h1 :: h2 :: ':' :: m1 :: m2 :: rest => do
    let h ← twoDigits h1 h2
    let m ← twoDigits m1 m2
    if h ≤ 23 ∧ m ≤ 59 then
      match rest with
      | ':' :: s1 :: s2 :: rest2 => do
        let s ← twoDigits s1 s2
        if s ≤ 59 then pure (h, m, s, rest2) else none
      | other => pure (h, m, 0, other)
    else none
  | _ => none

/-- Parse the optional trailing UTC offset `±HH:MM` (the whole remaining
input must be consumed); `none`-offset when the input is empty. -/
def parseOffset : List Char → Option (Option Int)
  | [] => some none
  | '+' :: h1 :: h2 :: ':' :: m1 :: m2 :: [] => do
    let h ← twoDigits h1 h2
    let m ← twoDigits m1 m2
    if h ≤ 23 ∧ m ≤ 59 then pure (some ((h * 3600 + m * 60 : Nat) : Int)) else none
  | '-' :: h1 :: h2 :: ':' :: m1 :: m2 :: [] => do
    let h ← twoDigits h1 h2
    let m ← twoDigits m1 m2
    if h ≤ 23 ∧ m ≤ 59 then pure (some (-((h * 3600 + m * 60 : Nat) : Int))) else none
  | _ => none

/-- Core of `datetime.fromisoformat` on the character list of the input. -/
def fromisoChars : List Char → Option PyDatetime
  | y1 :: y2 :: y3 :: y4 :: '-' :: mo1 :: mo2 :: '-' :: d1 :: d2 :: rest => do
    let y ← fourDigits y1 y2 y3 y4
    let mo ← twoDigits mo1 mo2
    let d ← twoDigits d1 d2
    if 1 ≤ y ∧ 1 ≤ mo ∧ mo ≤ 12 ∧ 1 ≤ d ∧ d ≤ daysInMonth y mo then
      match rest with
      | [] => pure { ts := (daysFromCivil y mo d : Int) * 86400, utcoffset := none }
      | sep :: timeRest =>
        if sep = 'T' ∨ sep = ' ' then do
          let (h, mi, s, offRest) ← parseHMS timeRest
          let off ← parseOffset offRest
          pure { ts := (daysFromCivil y mo d : Int) * 86400 + ((h * 3600 + mi * 60 + s : Nat) : Int),
                 utcoffset := off }
        else none
    else none
  | _ => none

/-- `datetime.fromisoformat(s)`: a parsed datetime or the `ValueError` it
raises. -/
def fromisoformat (s : String) : Except String PyDatetime :=
  match fromisoChars s.data with
  | some dt => Except.ok dt
  | none => Except.error ("ValueError: Invalid isoformat string: " ++ s)

/-- `a - b` on datetimes, in seconds.  Mixing aware and naive datetimes
raises `TypeError`; aware datetimes subtract as instants. -/
def pySub (a b : PyDatetime) : Except String Int :=
  match a.utcoffset, b.utcoffset with
  | none, none => Except.ok (a.ts - b.ts)
  | some x, some y => Except.ok ((a.ts - x) - (b.ts - y))
  | _, _ => Except.error "TypeError: cannot subtract offset-naive and offset-aware datetimes"

/-- `a > b` on datetimes; mixing aware and naive raises `TypeError`. -/
def pyGT (a b : PyDatetime) : Except String Bool :=
  match a.utcoffset, b.utcoffset with
  | none, none => Except.ok (b.ts < a.ts)
  | some x, some y => Except.ok (b.ts - y < a.ts - x)
  | _, _ => Except.error "TypeError: cannot compare offset-naive and offset-aware datetimes"

/-- `timedelta.days` of a delta of `d` seconds: floor division by 86400. -/
def deltaDays (d : Int) : Int := Int.fdiv d 86400

/-- `s.replace("Z", "+00:00")` on the character list. -/
def replaceZChars : List Char → List Char
  | [] => []
  | c :: cs =>
    if c = 'Z' then '+' :: '0' :: '0' :: ':' :: '0' :: '0' :: replaceZChars cs
    else c :: replaceZChars cs

/-- `s.replace("Z", "+00:00")`. -/
def replaceZ (s : String) : String := ⟨replaceZChars s.data⟩

/-- Characters before the first `'_'`: `s.split("_")[0]`. -/
def beforeUnderscore : List Char → List Char
  | [] => []
  | c :: cs => if c = '_' then [] else c :: beforeUnderscore cs

/-- `s.split("_")[0]`. -/
def splitHead (s : String) : String := ⟨beforeUnderscore s.data⟩

/-! ## The analyzer's data -/

/-- A freeze event (lines 229-237): the `freeze_event` dict. -/
structure FreezeEvent where
  start_time : String
  duration_hours : Nat
  min_temp : Int
deriving DecidableEq, Repr

/-- An emitted alert (type tag, human-readable message, source event). -/
structure Alert where
  type : String
  message : String
  event : FreezeEvent
deriving DecidableEq, Repr

/-- The persisted alert history.  `none` models an absent key or a JSON
`null` (both behave identically under `history.get`); for
`extended_freeze_alerts`, `none` models an absent key (the code
distinguishes absence via `"extended_freeze_alerts" in history`). -/
structure History where
  first_frost_alerted : Option String
  second_frost_alerted : Option String
  extended_freeze_alerts : Option (List String)
deriving DecidableEq, Repr

/-- Python truthiness of a `history.get(...)` result: `None` and `""` are
falsy, any other string truthy. -/
def truthy : Option String → Bool
  | none => false
  | some s => s ≠ ""

/-- The extended-freeze alert key `f"{start_time}_{duration_hours}"`
(line 284). -/
def keyOf (e : FreezeEvent) : String :=
  e.start_time ++ "_" ++ toString e.duration_hours

/-- Message of the FIRST FROST alert (line 266). -/
def firstFrostMessage (e : FreezeEvent) : String :=
  "First frost warning\n" ++ e.start_time ++ "\nLow: " ++ toString e.min_temp
    ++ "F\nDuration: " ++ toString e.duration_hours ++ "hrs"

/-- Message of the SECOND FROST alert (line 276). -/
def secondFrostMessage (e : FreezeEvent) : String :=
  "Second frost warning\n" ++ e.start_time ++ "\nLow: " ++ toString e.min_temp
    ++ "F\nDuration: " ++ toString e.duration_hours ++ "hrs"

/-- Message of the EXTENDED FREEZE alert (line 288). -/
def extendedFreezeMessage (e : FreezeEvent) : String :=
  "Extended freeze\n" ++ e.start_time ++ "\nLow: " ++ toString e.min_temp
    ++ "F\nDuration: " ++ toString e.duration_hours ++ "hrs"

/-- The FIRST FROST alert record (lines 264-268). -/
def mkFirstFrostAlert (e : FreezeEvent) : Alert :=
  { type := "FIRST FROST", message := firstFrostMessage e, event := e }

/-- The SECOND FROST alert record (lines 274-278). -/
def mkSecondFrostAlert (e : FreezeEvent) : Alert :=
  { type := "SECOND FROST", message := secondFrostMessage e, event := e }

/-- The EXTENDED FREEZE alert record (lines 286-290). -/
def mkExtendedFreezeAlert (e : FreezeEvent) : Alert :=
  { type := "EXTENDED FREEZE", message := extendedFreezeMessage e, event := e }

/-! ## The scan (lines 199-257) -/

/-- The second-frost test (lines 246-252): parse both start times (after
`.replace("Z", "+00:00")`), subtract, and ask `.days >= 1`; the bare
`except` makes any failure (parse `ValueError` or aware/naive `TypeError`)
qualify the candidate. -/
def secondFrostQualifies (first_start time_str : String) : Bool :=
  match fromisoformat (replaceZ first_start), fromisoformat (replaceZ time_str) with
  | Except.ok first_time, Except.ok current_time =>
    match pySub current_time first_time with
    | Except.ok delta => 1 ≤ deltaDays delta
    | Except.error _ => true
  | _, _ => true

/-- One classification step of `frost_events` for a newly discovered event
(lines 242-252): the first event is kept; while exactly one is kept, a
subsequent event is appended iff `secondFrostQualifies`; afterwards nothing
changes. -/
def frostExtend (fs : List FreezeEvent) (ev : FreezeEvent) : List FreezeEvent :=
  match fs with
  | [] => [ev]
  | [e1] => if secondFrostQualifies e1.start_time ev.start_time then [e1, ev] else [e1]
  | _ => fs

/-- The inner loop (lines 216-226): length of the freezing prefix of the
remaining samples and its resolved temperatures, or the `TypeError` of the
first comparison that would raise. -/
def runLength : List Period → Except String (Nat × List Int)
  | [] => Except.ok (0, [])
  | p :: rest =>
    match tempE p with
    | Except.error e => Except.error e
    | Except.ok t =>
      if t ≤ 32 then
        match runLength rest with
        | Except.error e => Except.error e
        | Except.ok (n, ts) => Except.ok (n + 1, t :: ts)
      else
        Except.ok (0, [])

/-- `min` of a nonempty collection of temperatures, first element `t`. -/
def listMin (t : Int) (ts : List Int) : Int := ts.foldl min t

/-- The cursor loop (lines 199-257).  `fuel` bounds the number of
iterations; the loop consumes at least one sample per iteration, so
`fuel = length of the list` at entry makes the zero-fuel branch
unreachable.  Accumulators: `evs` all constructed `freeze_event` records in
order, `fs` = `frost_events`, `es` = `extended_freezes`. -/
def scanLoop : Nat → List Period → List FreezeEvent → List FreezeEvent → List FreezeEvent →
    Except String (List FreezeEvent × List FreezeEvent × List FreezeEvent)
  | _, [], evs, fs, es => Except.ok (evs, fs, es)
  | 0, _ :: _, evs, fs, es => Except.ok (evs, fs, es)
  | fuel + 1, p :: rest, evs, fs, es =>
    match tempE p with
    | Except.error e => Except.error e
    | Except.ok t =>
      let time_str := p.startTime.getD ""
      if t ≤ 32 then
        match runLength rest with
        | Except.error e => Except.error e
        | Except.ok (n, ts) =>
          let freeze_event : FreezeEvent :=
            { start_time := time_str, duration_hours := n + 1, min_temp := listMin t ts }
          let es' := if 1 < n + 1 then es ++ [freeze_event] else es
          let fs' := frostExtend fs freeze_event
          scanLoop fuel (rest.drop n) (evs ++ [freeze_event]) fs' es'
      else
        scanLoop fuel rest evs fs es

/-- The full scan of the forecast: all freeze events in discovery order,
`frost_events`, and `extended_freezes`. -/
def scanForecast (forecast_periods : List Period) :
    Except String (List FreezeEvent × List FreezeEvent × List FreezeEvent) :=
  scanLoop forecast_periods.length forecast_periods [] [] []

/-! ## Alert emission and history update (lines 259-301) -/

/-- First-frost emission (lines 262-269). -/
def applyFirstFrost (frost_events : List FreezeEvent) (st : List Alert × History) :
    List Alert × History :=
  match frost_events with
  | [] => st
  | event :: _ =>
    if truthy st.2.first_frost_alerted then st
    else
      (st.1 ++ [mkFirstFrostAlert event],
       { st.2 with first_frost_alerted := some event.start_time })

/-- Second-frost emission (lines 272-279). -/
def applySecondFrost (frost_events : List FreezeEvent) (st : List Alert × History) :
    List Alert × History :=
  match frost_events with
  | _ :: event :: _ =>
    if truthy st.2.second_frost_alerted then st
    else
      (st.1 ++ [mkSecondFrostAlert event],
       { st.2 with second_frost_alerted := some event.start_time })
  | _ => st

/-- Extended-freeze emission for one candidate (lines 282-293): emit iff
the key is not already present, then append the key (creating the list if
the history lacks it). -/
def emitExtended (st : List Alert × History) (freeze : FreezeEvent) : List Alert × History :=
  let alert_key := keyOf freeze
  if alert_key ∈ st.2.extended_freeze_alerts.getD [] then st
  else
    (st.1 ++ [mkExtendedFreezeAlert freeze],
     { st.2 with
        extended_freeze_alerts := some (st.2.extended_freeze_alerts.getD [] ++ [alert_key]) })

/-- The three emission stages in program order. -/
def emitPhase (frost_events extended_freezes : List FreezeEvent) (history : History) :
    List Alert × History :=
  extended_freezes.foldl emitExtended
    (applySecondFrost frost_events (applyFirstFrost frost_events ([], history)))

/-- Keep-or-drop decision for one stored key (line 300):
`not alert or datetime.fromisoformat(alert.split("_")[0].replace("Z", "+00:00")) > cutoff`
with `cutoff = datetime.now() - timedelta(days=14)` (naive).  An exception
here (`ValueError` on parse, `TypeError` on aware-vs-naive comparison)
propagates out of the analyzer. -/
def pruneKey (now : Int) (alert : String) : Except String Bool :=
  if alert = "" then Except.ok true
  else
    match fromisoformat (replaceZ (splitHead alert)) with
    | Except.error e => Except.error e
    | Except.ok dt => pyGT dt { ts := now - 14 * 86400, utcoffset := none }

/-- The pruning list comprehension (lines 298-301). -/
def pruneList (now : Int) : List String → Except String (List String)
  | [] => Except.ok []
  | a :: rest =>
    match pruneKey now a with
    | Except.error e => Except.error e
    | Except.ok keep =>
      match pruneList now rest with
      | Except.error e => Except.error e
      | Except.ok rest' => Except.ok (if keep then a :: rest' else rest')

/-- The pruning block (lines 296-301): runs only when the history has the
`extended_freeze_alerts` key. -/
def prunePhase (now : Int) (st : List Alert × History) :
    Except String (List Alert × History) :=
  match st.2.extended_freeze_alerts with
  | none => Except.ok st
  | some l =>
    (pruneList now l).map fun l' =>
      (st.1, { st.2 with extended_freeze_alerts := some l' })

/-- `check_freezing_conditions` (lines 189-304): scan, emit, prune.  `now`
is the naive `datetime.now()` timestamp in seconds; the returned pair is
(alerts, saved history); an uncaught Python exception is `Except.error`. -/
def check_freezing_conditions (now : Int) (forecast_periods : List Period)
    (history : History) : Except String (List Alert × History) :=
  match scanForecast forecast_periods with
  | Except.error e => Except.error e
  | Except.ok (_, frost_events, extended_freezes) =>
    prunePhase now (emitPhase frost_events extended_freezes history)

/-! ## Specification-side definitions

These follow the spec's words, to be compared with the embedded code:
a freeze event is "a maximal run of consecutive forecast samples at or
below 32°F" with `start_time` the first sample's timestamp,
`duration_hours` the run length and `min_temp` the minimum over the run;
missing/malformed temperatures default high (spec §4.1/§7). -/

/-- Temperature as the spec reads it: a bare number, or the number in a
nested `"value"` field; anything missing or malformed is the high default
100 ("so it never registers as freezing"). -/
def specTemp (p : Period) : Int :=
  match resolveTemp p with
  | .num t => t
  | _ => 100

/-- A sample is freezing when its (spec-read) temperature is ≤ 32°F. -/
def freezing (p : Period) : Bool := specTemp p ≤ 32

/-- The maximal runs of consecutive freezing samples, in order: the spec's
"maximal run of consecutive forecast samples at or below 32°F".  A freezing
sample joins the following run when its successor is also freezing,
otherwise it starts (and here closes) its own run. -/
def freezeBlocks : List Period → List (List Period)
  | [] => []
  | [p] => if freezing p then [[p]] else []
  | p :: q :: rest =>
    if freezing p then
      if freezing q then
        match freezeBlocks (q :: rest) with
        | b :: bs => (p :: b) :: bs
        | [] => [[p]]
      else [p] :: freezeBlocks (q :: rest)
    else freezeBlocks (q :: rest)

/-- The Freeze Event of one maximal run, per the spec's data model:
timestamp of the first sample, count of samples, minimum temperature. -/
def eventOfBlock : List Period → FreezeEvent
  | [] => { start_time := "", duration_hours := 0, min_temp := 100 }
  | p :: rest =>
    { start_time := p.startTime.getD ""
      duration_hours := (p :: rest).length
      min_temp := listMin (specTemp p) (rest.map specTemp) }

/-- The freeze events the spec predicts: one per maximal freezing run, in
chronological order. -/
def specRuns (ps : List Period) : List FreezeEvent :=
  (freezeBlocks ps).map eventOfBlock

/-- The frost-candidate list the scan's classification produces, described
directly: the first discovered event, then the earliest subsequent event
that `secondFrostQualifies` against it (if any). -/
def frostSpec : List FreezeEvent → List FreezeEvent
  | [] => []
  | e1 :: rest =>
    match rest.find? (fun e => secondFrostQualifies e1.start_time e.start_time) with
    | some e2 => [e1, e2]
    | none => [e1]

/-- The spec's extended-freeze emission rule, stated directly: walk the
candidates in scan order, emit one alert per candidate whose key is not
already present, appending the key as you go.  Returns the emitted events
and the final key list. -/
def extendedSpec (keys : List String) : List FreezeEvent → List FreezeEvent × List String
  | [] => ([], keys)
  | e :: rest =>
    if keyOf e ∈ keys then extendedSpec keys rest
    else
      let (es, ks) := extendedSpec (keys ++ [keyOf e]) rest
      (e :: es, ks)

/-! ## Scan lemmas -/

theorem tempE_ok_specTemp {p : Period} {t : Int} (h : tempE p = Except.ok t) :
    specTemp p = t := by
  unfold tempE asNumber at h
  unfold specTemp
  cases hr : resolveTemp p <;> rw [hr] at h <;> simp_all

theorem tempE_ok_freezing {p : Period} {t : Int} (h : tempE p = Except.ok t) :
    freezing p = decide (t ≤ 32) := by
  unfold freezing
  rw [tempE_ok_specTemp h]

theorem runLength_spec {l : List Period} (h : ∀ p ∈ l, (tempE p).isOk) :
    runLength l =
      Except.ok ((l.takeWhile freezing).length, (l.takeWhile freezing).map specTemp) := by
  induction l with
  | nil => rfl
  | cons p rest ih =>
    have hp : (tempE p).isOk := h p (by simp)
    obtain ⟨t, ht⟩ : ∃ t, tempE p = Except.ok t := by
      cases hE : tempE p <;> simp_all [Except.isOk, Except.toBool]
    have hrest : ∀ q ∈ rest, (tempE q).isOk := fun q hq => h q (by simp [hq])
    by_cases hc : t ≤ 32
    · rw [List.takeWhile_cons_of_pos (by rw [tempE_ok_freezing ht]; simpa using hc)]
      simp only [runLength, ht, ih hrest]
      simp [hc, tempE_ok_specTemp ht]
    · rw [List.takeWhile_cons_of_neg (by rw [tempE_ok_freezing ht]; simpa using hc)]
      simp only [runLength, ht, ih hrest]
      simp [hc]

theorem drop_length_takeWhile (q : Period → Bool) (l : List Period) :
    l.drop (l.takeWhile q).length = l.dropWhile q := by
  induction l with
  | nil => rfl
  | cons p rest ih =>
    by_cases hp : q p
    · rw [List.takeWhile_cons_of_pos hp, List.dropWhile_cons_of_pos hp]
      simpa using ih
    · rw [List.takeWhile_cons_of_neg hp, List.dropWhile_cons_of_neg hp]
      rfl

theorem freezeBlocks_cons_neg {p : Period} (rest : List Period) (hp : ¬ freezing p) :
    freezeBlocks (p :: rest) = freezeBlocks rest := by
  cases rest with
  | nil => simp [freezeBlocks, hp]
  | cons q rest' => simp [freezeBlocks, hp]

theorem freezeBlocks_cons_pos (rest : List Period) :
    ∀ p : Period, freezing p →
      freezeBlocks (p :: rest) =
        (p :: rest.takeWhile freezing) :: freezeBlocks (rest.dropWhile freezing) := by
  induction rest with
  | nil => intro p hp; simp [freezeBlocks, hp]
  | cons q rest' ih =>
    intro p hp
    by_cases hq : freezing q
    · rw [List.takeWhile_cons_of_pos hq, List.dropWhile_cons_of_pos hq]
      simp only [freezeBlocks, hp, if_true, ih q hq]
      simp [hq]
    · rw [List.takeWhile_cons_of_neg hq, List.dropWhile_cons_of_neg hq]
      simp only [freezeBlocks, hp, if_true]
      simp [hq]

theorem scanLoop_decomp :
    ∀ (fuel : Nat) (l : List Period) (evs fs es E F X : List FreezeEvent),
      scanLoop fuel l evs fs es = Except.ok (E, F, X) →
      ∃ new : List FreezeEvent,
        E = evs ++ new ∧ F = new.foldl frostExtend fs ∧
          X = es ++ new.filter (fun e => 1 < e.duration_hours) := by
  intro fuel
  induction fuel with
  | zero =>
    intro l evs fs es E F X h
    cases l with
    | nil =>
      simp only [scanLoop, Except.ok.injEq, Prod.mk.injEq] at h
      exact ⟨[], by simp [← h.1], by simp [← h.2.1], by simp [← h.2.2]⟩
    | cons p rest =>
      simp only [scanLoop, Except.ok.injEq, Prod.mk.injEq] at h
      exact ⟨[], by simp [← h.1], by simp [← h.2.1], by simp [← h.2.2]⟩
  | succ fuel ih =>
    intro l evs fs es E F X h
    cases l with
    | nil =>
      simp only [scanLoop, Except.ok.injEq, Prod.mk.injEq] at h
      exact ⟨[], by simp [← h.1], by simp [← h.2.1], by simp [← h.2.2]⟩
    | cons p rest =>
      simp only [scanLoop] at h
      cases htE : tempE p with
      | error e => rw [htE] at h; simp at h
      | ok t =>
        simp only [htE] at h
        by_cases hc : t ≤ 32
        · rw [if_pos hc] at h
          cases hrl : runLength rest with
          | error e => rw [hrl] at h; simp at h
          | ok pr =>
            obtain ⟨n, ts⟩ := pr
            simp only [hrl] at h
            obtain ⟨new', h1, h2, h3⟩ := ih _ _ _ _ _ _ _ h
            refine ⟨⟨p.startTime.getD "", n + 1, listMin t ts⟩ :: new', ?_, ?_, ?_⟩
            · rw [h1]; simp
            · rw [h2]; rfl
            · rw [h3, List.filter_cons]
              by_cases hn : 1 < n + 1 <;> simp [hn]
        · rw [if_neg hc] at h
          exact ih _ _ _ _ _ _ _ h

theorem scanLoop_spec :
    ∀ (fuel : Nat) (l : List Period) (evs fs es : List FreezeEvent),
      l.length ≤ fuel → (∀ p ∈ l, (tempE p).isOk) →
      scanLoop fuel l evs fs es =
        Except.ok (evs ++ specRuns l, (specRuns l).foldl frostExtend fs,
          es ++ (specRuns l).filter (fun e => 1 < e.duration_hours)) := by
  intro fuel
  induction fuel with
  | zero =>
    intro l evs fs es hlen h
    cases l with
    | nil => simp [scanLoop, specRuns, freezeBlocks]
    | cons p rest => simp at hlen
  | succ fuel ih =>
    intro l evs fs es hlen h
    cases l with
    | nil => simp [scanLoop, specRuns, freezeBlocks]
    | cons p rest =>
      have hp : (tempE p).isOk := h p (by simp)
      obtain ⟨t, ht⟩ : ∃ t, tempE p = Except.ok t := by
        cases hE : tempE p <;> simp_all [Except.isOk, Except.toBool]
      have hrest : ∀ q ∈ rest, (tempE q).isOk := fun q hq => h q (by simp [hq])
      simp only [scanLoop]
      simp only [ht]
      by_cases hc : t ≤ 32
      · have hfp : freezing p := by rw [tempE_ok_freezing ht]; simpa using hc
        rw [if_pos hc]
        simp only [runLength_spec hrest]
        rw [drop_length_takeWhile]
        have hspec : specRuns (p :: rest) =
            eventOfBlock (p :: rest.takeWhile freezing) :: specRuns (rest.dropWhile freezing) := by
          simp [specRuns, freezeBlocks_cons_pos rest p hfp]
        have hev : eventOfBlock (p :: rest.takeWhile freezing) =
            ⟨p.startTime.getD "", (rest.takeWhile freezing).length + 1,
              listMin t ((rest.takeWhile freezing).map specTemp)⟩ := by
          simp [eventOfBlock, listMin, tempE_ok_specTemp ht]
        have hlen' : (rest.dropWhile freezing).length ≤ fuel :=
          le_trans (List.Sublist.length_le (List.dropWhile_sublist freezing)) (by simpa using hlen)
        have hres' : ∀ q ∈ rest.dropWhile freezing, (tempE q).isOk := fun q hq =>
          hrest q ((List.dropWhile_sublist freezing).subset hq)
        rw [ih _ _ _ _ hlen' hres', hspec, hev]
        refine congrArg Except.ok ?_
        refine Prod.ext ?_ (Prod.ext ?_ ?_) <;> simp only
        · simp
        · rfl
        · rw [List.filter_cons]
          by_cases hn : 1 < (rest.takeWhile freezing).length + 1 <;> simp [hn]
      · have hfp : ¬ freezing p := by rw [tempE_ok_freezing ht]; simpa using hc
        rw [if_neg hc]
        have hspec : specRuns (p :: rest) = specRuns rest := by
          simp [specRuns, freezeBlocks_cons_neg rest hfp]
        rw [ih _ _ _ _ (by simpa using Nat.le_of_succ_le_succ hlen) hrest, hspec]

/-! ## Frost-classification lemmas -/

theorem frostExtend_two (l : List FreezeEvent) (a b : FreezeEvent) :
    l.foldl frostExtend [a, b] = [a, b] := by
  induction l with
  | nil => rfl
  | cons e rest ih => simpa [frostExtend] using ih

theorem foldl_frostExtend_one (e1 : FreezeEvent) (l : List FreezeEvent) :
    l.foldl frostExtend [e1] =
      match l.find? (fun e => secondFrostQualifies e1.start_time e.start_time) with
      | some e2 => [e1, e2]
      | none => [e1] := by
  induction l with
  | nil => rfl
  | cons e rest ih =>
    cases hq : secondFrostQualifies e1.start_time e.start_time with
    | true =>
      simp only [List.foldl_cons, frostExtend, hq, if_true, List.find?_cons, frostExtend_two]
    | false =>
      simp only [List.foldl_cons, frostExtend, hq, List.find?_cons]
      simp only [Bool.false_eq_true, if_false]
      exact ih

theorem foldl_frostExtend_nil (l : List FreezeEvent) :
    l.foldl frostExtend [] = frostSpec l := by
  cases l with
  | nil => rfl
  | cons e1 rest =>
    simp only [frostSpec, List.foldl_cons]
    have h1 : frostExtend [] e1 = [e1] := rfl
    rw [h1, foldl_frostExtend_one]

/-! ## Extended-freeze emission lemmas -/

theorem foldl_emitExtended_spec (cs : List FreezeEvent) :
    ∀ (as : List Alert) (h : History),
      (cs.foldl emitExtended (as, h)).1 =
          as ++ ((extendedSpec (h.extended_freeze_alerts.getD []) cs).1).map mkExtendedFreezeAlert
        ∧ ((cs.foldl emitExtended (as, h)).2).extended_freeze_alerts.getD [] =
            (extendedSpec (h.extended_freeze_alerts.getD []) cs).2
        ∧ ((cs.foldl emitExtended (as, h)).2).first_frost_alerted = h.first_frost_alerted
        ∧ ((cs.foldl emitExtended (as, h)).2).second_frost_alerted = h.second_frost_alerted := by
  induction cs with
  | nil => intro as h; simp [extendedSpec]
  | cons c rest ih =>
    intro as h
    by_cases hk : keyOf c ∈ h.extended_freeze_alerts.getD []
    · simpa [List.foldl_cons, emitExtended, hk, extendedSpec] using ih as h
    · have hstep := ih (as ++ [mkExtendedFreezeAlert c])
        { h with extended_freeze_alerts := some (h.extended_freeze_alerts.getD [] ++ [keyOf c]) }
      simp only [List.foldl_cons, emitExtended, hk, if_false, extendedSpec]
      simp only [Option.getD_some] at hstep
      simp [hstep.1, hstep.2.1, hstep.2.2.1, hstep.2.2.2, extendedSpec, hk]

theorem extendedSpec_emitted_not_mem (cs : List FreezeEvent) :
    ∀ (keys : List String) (e : FreezeEvent),
      e ∈ (extendedSpec keys cs).1 → keyOf e ∉ keys := by
  induction cs with
  | nil => intro keys e he; simp [extendedSpec] at he
  | cons c rest ih =>
    intro keys e he
    by_cases hk : keyOf c ∈ keys
    · simp only [extendedSpec, hk, if_true] at he
      exact ih keys e he
    · simp only [extendedSpec, hk, if_false] at he
      rcases List.mem_cons.mp he with rfl | he'
      · exact hk
      · intro hmem
        exact ih _ e he' (by simp [hmem])

theorem extendedSpec_keys_mono (cs : List FreezeEvent) :
    ∀ (keys : List String) (k : String), k ∈ keys → k ∈ (extendedSpec keys cs).2 := by
  induction cs with
  | nil => intro keys k hk; simpa [extendedSpec] using hk
  | cons c rest ih =>
    intro keys k hk
    by_cases hc : keyOf c ∈ keys
    · simp only [extendedSpec, hc, if_true]
      exact ih keys k hk
    · simp only [extendedSpec, hc, if_false]
      exact ih _ k (by simp [hk])

theorem extendedSpec_keys_source (cs : List FreezeEvent) :
    ∀ (keys : List String) (k : String), k ∈ (extendedSpec keys cs).2 →
      k ∈ keys ∨ ∃ e ∈ cs, k = keyOf e := by
  induction cs with
  | nil => intro keys k hk; simp only [extendedSpec] at hk; exact Or.inl hk
  | cons c rest ih =>
    intro keys k hk
    by_cases hc : keyOf c ∈ keys
    · simp only [extendedSpec, hc, if_true] at hk
      rcases ih keys k hk with h | ⟨e, he, rfl⟩
      · exact Or.inl h
      · exact Or.inr ⟨e, by simp [he], rfl⟩
    · simp only [extendedSpec, hc, if_false] at hk
      rcases ih _ k hk with h | ⟨e, he, rfl⟩
      · rcases List.mem_append.mp h with h' | h'
        · exact Or.inl h'
        · exact Or.inr ⟨c, by simp, by simpa using h'⟩
      · exact Or.inr ⟨e, by simp [he], rfl⟩

/-! ## Pruning lemmas -/

theorem pruneList_mem {now : Int} :
    ∀ {l l' : List String}, pruneList now l = Except.ok l' →
      (∀ k ∈ l', k ∈ l ∧ pruneKey now k = Except.ok true)
        ∧ (∀ k ∈ l, pruneKey now k = Except.ok true → k ∈ l') := by
  intro l
  induction l with
  | nil =>
    intro l' h
    simp only [pruneList, Except.ok.injEq] at h
    subst h
    simp
  | cons a rest ih =>
    intro l' h
    simp only [pruneList] at h
    cases hk : pruneKey now a with
    | error e => rw [hk] at h; simp at h
    | ok keep =>
      simp only [hk] at h
      cases hr : pruneList now rest with
      | error e => rw [hr] at h; simp at h
      | ok rest' =>
        simp only [hr, Except.ok.injEq] at h
        obtain ⟨h1, h2⟩ := ih hr
        cases keep with
        | true =>
          subst h
          constructor
          · intro k hkmem
            rcases List.mem_cons.mp hkmem with rfl | hkm
            · exact ⟨by simp, hk⟩
            · exact ⟨by simp [(h1 k hkm).1], (h1 k hkm).2⟩
          · intro k hkmem hkeep
            rcases List.mem_cons.mp hkmem with rfl | hkm
            · simp
            · simp [h2 k hkm hkeep]
        | false =>
          subst h
          constructor
          · intro k hkmem
            exact ⟨by simp [(h1 k hkmem).1], (h1 k hkmem).2⟩
          · intro k hkmem hkeep
            rcases List.mem_cons.mp hkmem with rfl | hkm
            · rw [hk] at hkeep; simp at hkeep
            · exact h2 k hkm hkeep

theorem pruneList_isOk (now : Int) :
    ∀ {l : List String}, (∀ k ∈ l, (pruneKey now k).isOk) → (pruneList now l).isOk := by
  intro l
  induction l with
  | nil => intro h; simp [pruneList, Except.isOk, Except.toBool]
  | cons a rest ih =>
    intro h
    have ha : (pruneKey now a).isOk := h a (by simp)
    have hrest : (pruneList now rest).isOk := ih fun k hk => h k (by simp [hk])
    simp only [pruneList]
    cases hk : pruneKey now a with
    | error e => rw [hk] at ha; simp [Except.isOk, Except.toBool] at ha
    | ok keep =>
      cases hr : pruneList now rest with
      | error e => rw [hr] at hrest; simp [Except.isOk, Except.toBool] at hrest
      | ok rest' => simp [Except.isOk, Except.toBool]

/-! ## Emission-stage characterizations -/

/-- Alerts the first-frost stage appends. -/
def firstAlertsOf (fs : List FreezeEvent) (h : History) : List Alert :=
  match fs with
  | [] => []
  | e :: _ => if truthy h.first_frost_alerted then [] else [mkFirstFrostAlert e]

/-- The `first_frost_alerted` field after the first-frost stage. -/
def firstFieldOf (fs : List FreezeEvent) (h : History) : Option String :=
  match fs with
  | [] => h.first_frost_alerted
  | e :: _ =>
    if truthy h.first_frost_alerted then h.first_frost_alerted else some e.start_time

/-- Alerts the second-frost stage appends. -/
def secondAlertsOf (fs : List FreezeEvent) (h : History) : List Alert :=
  match fs with
  | _ :: e :: _ => if truthy h.second_frost_alerted then [] else [mkSecondFrostAlert e]
  | _ => []

/-- The `second_frost_alerted` field after the second-frost stage. -/
def secondFieldOf (fs : List FreezeEvent) (h : History) : Option String :=
  match fs with
  | _ :: e :: _ =>
    if truthy h.second_frost_alerted then h.second_frost_alerted else some e.start_time
  | _ => h.second_frost_alerted

theorem applyFirstFrost_eq (fs : List FreezeEvent) (as : List Alert) (h : History) :
    applyFirstFrost fs (as, h) =
      (as ++ firstAlertsOf fs h, { h with first_frost_alerted := firstFieldOf fs h }) := by
  match fs with
  | [] => simp [applyFirstFrost, firstAlertsOf, firstFieldOf]
  | e :: rest =>
    by_cases ht : truthy h.first_frost_alerted
    · simp [applyFirstFrost, firstAlertsOf, firstFieldOf, ht]
    · simp [applyFirstFrost, firstAlertsOf, firstFieldOf, ht]

theorem applySecondFrost_eq (fs : List FreezeEvent) (as : List Alert) (h : History) :
    applySecondFrost fs (as, h) =
      (as ++ secondAlertsOf fs h, { h with second_frost_alerted := secondFieldOf fs h }) := by
  match fs with
  | [] => simp [applySecondFrost, secondAlertsOf, secondFieldOf]
  | [e] => simp [applySecondFrost, secondAlertsOf, secondFieldOf]
  | e1 :: e2 :: rest =>
    by_cases ht : truthy h.second_frost_alerted
    · simp [applySecondFrost, secondAlertsOf, secondFieldOf, ht]
    · simp [applySecondFrost, secondAlertsOf, secondFieldOf, ht]

/-- The history after the two frost stages, before extended emission. -/
def afterFrostHistory (fs : List FreezeEvent) (h : History) : History :=
  { h with
      first_frost_alerted := firstFieldOf fs h
      second_frost_alerted := secondFieldOf fs h }

theorem emitPhase_eq (fs xs : List FreezeEvent) (h : History) :
    emitPhase fs xs h =
      xs.foldl emitExtended
        (firstAlertsOf fs h ++ secondAlertsOf fs h, afterFrostHistory fs h) := by
  unfold emitPhase
  rw [applyFirstFrost_eq, applySecondFrost_eq]
  simp only [List.nil_append]
  rfl

/-- Full characterization of the emission phase. -/
theorem emitPhase_spec (fs xs : List FreezeEvent) (h : History) :
    (emitPhase fs xs h).1 =
        firstAlertsOf fs h ++ secondAlertsOf fs h
          ++ ((extendedSpec (h.extended_freeze_alerts.getD []) xs).1).map mkExtendedFreezeAlert
      ∧ (emitPhase fs xs h).2.first_frost_alerted = firstFieldOf fs h
      ∧ (emitPhase fs xs h).2.second_frost_alerted = secondFieldOf fs h
      ∧ (emitPhase fs xs h).2.extended_freeze_alerts.getD [] =
          (extendedSpec (h.extended_freeze_alerts.getD []) xs).2 := by
  rw [emitPhase_eq]
  have hfold := foldl_emitExtended_spec xs
    (firstAlertsOf fs h ++ secondAlertsOf fs h) (afterFrostHistory fs h)
  refine ⟨?_, ?_, ?_, ?_⟩
  · rw [hfold.1]; simp [afterFrostHistory]
  · rw [hfold.2.2.1]; rfl
  · rw [hfold.2.2.2]; rfl
  · rw [hfold.2.1]; simp [afterFrostHistory]

/-! ## Whole-run decomposition -/

theorem check_ok_elim {now : Int} {ps : List Period} {h0 : History}
    {alerts : List Alert} {h' : History}
    (h : check_freezing_conditions now ps h0 = Except.ok (alerts, h')) :
    ∃ evs fs xs, scanForecast ps = Except.ok (evs, fs, xs) ∧
      prunePhase now (emitPhase fs xs h0) = Except.ok (alerts, h') := by
  unfold check_freezing_conditions at h
  cases hs : scanForecast ps with
  | error e => rw [hs] at h; simp at h
  | ok tr =>
    obtain ⟨evs, fs, xs⟩ := tr
    rw [hs] at h
    exact ⟨evs, fs, xs, rfl, h⟩

theorem prunePhase_ok_elim {now : Int} {st : List Alert × History}
    {alerts : List Alert} {h' : History}
    (h : prunePhase now st = Except.ok (alerts, h')) :
    alerts = st.1 ∧ h'.first_frost_alerted = st.2.first_frost_alerted
      ∧ h'.second_frost_alerted = st.2.second_frost_alerted
      ∧ ((st.2.extended_freeze_alerts = none ∧ h' = st.2)
        ∨ ∃ l l', st.2.extended_freeze_alerts = some l ∧ pruneList now l = Except.ok l'
            ∧ h' = { st.2 with extended_freeze_alerts := some l' }) := by
  unfold prunePhase at h
  cases hx : st.2.extended_freeze_alerts with
  | none =>
    simp only [hx, Except.ok.injEq] at h
    have h1 : st.1 = alerts := by rw [h]
    have h2 : st.2 = h' := by rw [h]
    exact ⟨h1.symm, by rw [← h2], by rw [← h2], Or.inl ⟨rfl, h2.symm⟩⟩
  | some l =>
    simp only [hx] at h
    cases hp : pruneList now l with
    | error e => rw [hp] at h; simp [Except.map] at h
    | ok l' =>
      rw [hp] at h
      simp only [Except.map, Except.ok.injEq, Prod.mk.injEq] at h
      obtain ⟨h1, h2⟩ := h
      refine ⟨h1.symm, ?_, ?_, Or.inr ⟨l, l', rfl, hp, h2.symm⟩⟩ <;> simp [← h2]

theorem freezeBlocks_nil_of_no_freezing :
    ∀ {l : List Period}, (∀ p ∈ l, ¬ freezing p) → freezeBlocks l = [] := by
  intro l
  induction l with
  | nil => intro _; rfl
  | cons p rest ih =>
    intro h
    rw [freezeBlocks_cons_neg rest (h p (by simp))]
    exact ih fun q hq => h q (by simp [hq])

/-! ## Claim C1 -/

/-- C1: for every ordered sample sequence (whose temperatures all resolve
to numbers, so that the scan completes), the scan produces exactly the
maximal runs of consecutive samples with temperature ≤ 32°F, in
chronological order and without overlap or re-scan (`specRuns` is, by
construction, one event per maximal freezing run, in order): each event has
`start_time` the run's first sample's timestamp, `duration_hours` the run's
length, and `min_temp` the minimum temperature over the run
(`eventOfBlock`).  In particular, a sequence with no temperature ≤ 32
yields no freeze events. -/
theorem c1_freeze_events_are_maximal_runs (ps : List Period)
    (h : ∀ p ∈ ps, (tempE p).isOk) :
    (∃ fs xs, scanForecast ps = Except.ok (specRuns ps, fs, xs))
      ∧ ((∀ p ∈ ps, ¬ freezing p) → specRuns ps = []) := by
  constructor
  · refine ⟨(specRuns ps).foldl frostExtend [],
      (specRuns ps).filter (fun e => 1 < e.duration_hours), ?_⟩
    have hmain := scanLoop_spec ps.length ps [] [] [] le_rfl h
    simpa [scanForecast] using hmain
  · intro hnf
    simp [specRuns, freezeBlocks_nil_of_no_freezing hnf]

/-- Samples of spec §8's example: temperatures `[32,32,40,30,30,30]` at
hourly timestamps. -/
def c1ps : List Period :=
  [⟨some "2024-11-01T00:00:00", some (.num 32)⟩,
   ⟨some "2024-11-01T01:00:00", some (.num 32)⟩,
   ⟨some "2024-11-01T02:00:00", some (.num 40)⟩,
   ⟨some "2024-11-01T03:00:00", some (.num 30)⟩,
   ⟨some "2024-11-01T04:00:00", some (.num 30)⟩,
   ⟨some "2024-11-01T05:00:00", some (.num 30)⟩]

theorem c1_witness :
    (∀ p ∈ c1ps, (tempE p).isOk)
      ∧ ((∃ fs xs, scanForecast c1ps = Except.ok (specRuns c1ps, fs, xs))
          ∧ ((∀ p ∈ c1ps, ¬ freezing p) → specRuns c1ps = []))
      ∧ specRuns c1ps =
          [⟨"2024-11-01T00:00:00", 2, 32⟩, ⟨"2024-11-01T03:00:00", 3, 30⟩] :=
  ⟨by decide, c1_freeze_events_are_maximal_runs c1ps (by decide), by decide⟩

/-! ## Claim C2 -/

/-- Samples with three isolated freezing hours: at T0, at T0+2h (fails the
whole-day test against T0), and at T0+25h (passes it). -/
def c2ps : List Period :=
  [⟨some "2024-11-01T00:00:00", some (.num 30)⟩,
   ⟨some "2024-11-01T01:00:00", some (.num 40)⟩,
   ⟨some "2024-11-01T02:00:00", some (.num 30)⟩,
   ⟨some "2024-11-01T03:00:00", some (.num 40)⟩,
   ⟨some "2024-11-02T01:00:00", some (.num 30)⟩]

def c2e1 : FreezeEvent := ⟨"2024-11-01T00:00:00", 1, 30⟩
def c2e2 : FreezeEvent := ⟨"2024-11-01T02:00:00", 1, 30⟩
def c2e3 : FreezeEvent := ⟨"2024-11-02T01:00:00", 1, 30⟩

/-- C2 counterexample: the claim says that when the event discovered
immediately after the first frost fails the whole-day test, no second-frost
candidate at all is recorded from this scan.  On `c2ps` the second
discovered event `c2e2` fails the test, yet the scan still records the
*third* event `c2e3` (≠ `c2e2`) as the second-frost candidate:
`frost_events = [c2e1, c2e3]`. -/
theorem c2_counterexample :
    scanForecast c2ps = Except.ok ([c2e1, c2e2, c2e3], [c2e1, c2e3], [])
      ∧ secondFrostQualifies c2e1.start_time c2e2.start_time = false
      ∧ c2e3 ≠ c2e2 := by decide

/-- C2 amended: while only the first frost candidate has been recorded,
each subsequently discovered event is tested; the *earliest* subsequent
event that passes the whole-day test (`.days ≥ 1`, or whose comparison
fails) becomes the second-frost candidate (`frostSpec` via
`List.find?`). -/
theorem c2_second_frost_first_qualifying (ps : List Period)
    (evs fs xs : List FreezeEvent)
    (h : scanForecast ps = Except.ok (evs, fs, xs)) :
    fs = frostSpec evs := by
  obtain ⟨new, h1, h2, h3⟩ := scanLoop_decomp ps.length ps [] [] [] evs fs xs h
  simp only [List.nil_append] at h1
  subst h1
  rw [h2, foldl_frostExtend_nil]

theorem c2_witness :
    scanForecast c2ps = Except.ok ([c2e1, c2e2, c2e3], [c2e1, c2e3], [])
      ∧ [c2e1, c2e3] = frostSpec [c2e1, c2e2, c2e3] :=
  ⟨by decide,
   c2_second_frost_first_qualifying c2ps [c2e1, c2e2, c2e3] [c2e1, c2e3] [] (by decide)⟩

/-! ## Claim C3 -/

def c3hist : History := ⟨none, none, some ["garbage_5"]⟩

/-- C3 counterexample: the claim says the analyzer never raises for any
input samples and history, including "history pruning over arbitrary stored
keys".  But a truthy stored key whose first `_`-segment is not a parseable
timestamp makes line 300's `datetime.fromisoformat` raise `ValueError`
(uncaught), aborting the analyzer: with history key `"garbage_5"` and an
empty forecast the run errors. -/
theorem c3_counterexample :
    check_freezing_conditions 0 [] c3hist =
      Except.error "ValueError: Invalid isoformat string: garbage" := by decide

/-- C3 amended: the analyzer completes without raising provided (i) every
sample's temperature resolves to a number (absent temperatures and dicts
without a `"value"` default to 100 and never register as freezing), and
(ii) every truthy key already stored in `extended_freeze_alerts`, and (iii)
the key of every extended-freeze candidate of this run, survive the
pruning comparison without an exception (their start segment parses as an
offset-naive timestamp). -/
theorem c3_no_raise_for_wellformed_inputs (now : Int) (ps : List Period) (h0 : History)
    (h1 : ∀ p ∈ ps, (tempE p).isOk)
    (h2 : ∀ k ∈ h0.extended_freeze_alerts.getD [], (pruneKey now k).isOk)
    (h3 : ∀ e ∈ specRuns ps, 1 < e.duration_hours → (pruneKey now (keyOf e)).isOk) :
    (check_freezing_conditions now ps h0).isOk := by
  have hscan := scanLoop_spec ps.length ps [] [] [] le_rfl h1
  unfold check_freezing_conditions
  unfold scanForecast
  rw [hscan]
  simp only [List.nil_append]
  set st := emitPhase ((specRuns ps).foldl frostExtend [])
    ((specRuns ps).filter (fun e => 1 < e.duration_hours)) h0 with hst
  unfold prunePhase
  cases hx : st.2.extended_freeze_alerts with
  | none => simp [Except.isOk, Except.toBool]
  | some l =>
    have hl : st.2.extended_freeze_alerts.getD [] = l := by rw [hx]; rfl
    have hspec := emitPhase_spec ((specRuns ps).foldl frostExtend [])
      ((specRuns ps).filter (fun e => 1 < e.duration_hours)) h0
    have hl2 : l = (extendedSpec (h0.extended_freeze_alerts.getD [])
        ((specRuns ps).filter (fun e => 1 < e.duration_hours))).2 := by
      rw [← hl, hst]
      exact hspec.2.2.2
    have hok : ∀ k ∈ l, (pruneKey now k).isOk := by
      intro k hk
      rw [hl2] at hk
      rcases extendedSpec_keys_source _ _ _ hk with hmem | ⟨e, he, rfl⟩
      · exact h2 k hmem
      · have := List.mem_filter.mp he
        exact h3 e this.1 (by simpa using this.2)
    have hpl := pruneList_isOk now hok
    cases hplv : pruneList now l with
    | error e => rw [hplv] at hpl; simp [Except.isOk, Except.toBool] at hpl
    | ok l' => simp [Except.map, hplv, Except.isOk, Except.toBool]

/-- History with one well-formed stored key and one falsy key. -/
def c3goodHist : History := ⟨none, none, some ["2024-10-22T00:00:00_3", ""]⟩

/-- `now` = naive 2024-11-04T00:00:00. -/
def c3now : Int := (daysFromCivil 2024 11 4 : Int) * 86400

theorem c3_witness :
    (∀ p ∈ c1ps, (tempE p).isOk)
      ∧ (∀ k ∈ c3goodHist.extended_freeze_alerts.getD [], (pruneKey c3now k).isOk)
      ∧ (∀ e ∈ specRuns c1ps, 1 < e.duration_hours → (pruneKey c3now (keyOf e)).isOk)
      ∧ (check_freezing_conditions c3now c1ps c3goodHist).isOk :=
  ⟨by decide, by decide, by decide,
   c3_no_raise_for_wellformed_inputs c3now c1ps c3goodHist (by decide) (by decide) (by decide)⟩

/-! ## Claim C4 -/

theorem pruneKey_ok_true_of {now : Int} {k : String} {dt : PyDatetime}
    (hp : fromisoformat (replaceZ (splitHead k)) = Except.ok dt)
    (hn : dt.utcoffset = none) (hgt : now - 14 * 86400 < dt.ts) :
    pruneKey now k = Except.ok true := by
  unfold pruneKey
  by_cases hk : k = ""
  · simp [hk]
  · rw [if_neg hk]
    simp only [hp]
    unfold pyGT
    rw [hn]
    simp
    omega

theorem pruneKey_true_gt {now : Int} {k : String} {dt : PyDatetime}
    (hkeep : pruneKey now k = Except.ok true)
    (hp : fromisoformat (replaceZ (splitHead k)) = Except.ok dt)
    (hn : dt.utcoffset = none) :
    now - 14 * 86400 < dt.ts := by
  unfold pruneKey at hkeep
  by_cases hk : k = ""
  · subst hk
    have hbad : fromisoformat (replaceZ (splitHead "")) =
        Except.error ("ValueError: Invalid isoformat string: " ++ "") := by rfl
    rw [hbad] at hp
    simp at hp
  · rw [if_neg hk] at hkeep
    simp only [hp] at hkeep
    unfold pyGT at hkeep
    rw [hn] at hkeep
    simpa using hkeep

/-- C4: after a completed run, (a) every key kept in
`extended_freeze_alerts` whose embedded start_time parses (to an
offset-naive timestamp, as the naive cutoff requires) is *less* than 14
days old — no key more than 14 days before `now` survives; and (b) every
input key whose embedded start_time parses to within the last 14 days
(strictly after `now` minus 14 days) is retained. -/
theorem c4_prune_retains_recent_drops_old (now : Int) (ps : List Period) (h0 : History)
    (alerts : List Alert) (h' : History)
    (hr : check_freezing_conditions now ps h0 = Except.ok (alerts, h')) :
    (∀ k ∈ h'.extended_freeze_alerts.getD [], ∀ dt : PyDatetime,
        fromisoformat (replaceZ (splitHead k)) = Except.ok dt → dt.utcoffset = none →
          now - 14 * 86400 < dt.ts)
      ∧ (∀ k ∈ h0.extended_freeze_alerts.getD [], ∀ dt : PyDatetime,
          fromisoformat (replaceZ (splitHead k)) = Except.ok dt → dt.utcoffset = none →
            now - 14 * 86400 < dt.ts → k ∈ h'.extended_freeze_alerts.getD []) := by
  obtain ⟨evs, fs, xs, hs, hp⟩ := check_ok_elim hr
  have hspec := emitPhase_spec fs xs h0
  obtain ⟨ha, hf, hsec, hext⟩ := prunePhase_ok_elim hp
  rcases hext with ⟨hnone, heq⟩ | ⟨l, l', hsome, hpl, heq⟩
  · subst heq
    have hempty : (emitPhase fs xs h0).2.extended_freeze_alerts.getD [] = [] := by
      rw [hnone]; rfl
    constructor
    · intro k hk
      rw [hempty] at hk
      simp at hk
    · intro k hk
      have : k ∈ (emitPhase fs xs h0).2.extended_freeze_alerts.getD [] := by
        rw [hspec.2.2.2]
        exact extendedSpec_keys_mono xs (h0.extended_freeze_alerts.getD []) k hk
      rw [hempty] at this
      simp at this
  · have hkept : h'.extended_freeze_alerts.getD [] = l' := by rw [heq]; rfl
    have hl : (emitPhase fs xs h0).2.extended_freeze_alerts.getD [] = l := by
      rw [hsome]; rfl
    obtain ⟨hmem1, hmem2⟩ := pruneList_mem hpl
    constructor
    · intro k hk dt hdt hn
      rw [hkept] at hk
      exact pruneKey_true_gt (hmem1 k hk).2 hdt hn
    · intro k hk dt hdt hn hgt
      have hkl : k ∈ l := by
        rw [← hl, hspec.2.2.2]
        exact extendedSpec_keys_mono xs (h0.extended_freeze_alerts.getD []) k hk
      rw [hkept]
      exact hmem2 k hkl (pruneKey_ok_true_of hdt hn hgt)

def c4now : Int := (daysFromCivil 2024 11 4 : Int) * 86400

/-- History with a key 15 days old and a key 13 days old relative to
`c4now` (2024-11-04). -/
def c4hist : History :=
  ⟨none, none, some ["2024-10-20T00:00:00_5", "2024-10-22T00:00:00_3"]⟩

theorem c4_witness :
    check_freezing_conditions c4now [] c4hist =
        Except.ok ([], ⟨none, none, some ["2024-10-22T00:00:00_3"]⟩)
      ∧ ((∀ k ∈ (⟨none, none, some ["2024-10-22T00:00:00_3"]⟩ : History).extended_freeze_alerts.getD [],
            ∀ dt : PyDatetime,
            fromisoformat (replaceZ (splitHead k)) = Except.ok dt → dt.utcoffset = none →
              c4now - 14 * 86400 < dt.ts)
          ∧ (∀ k ∈ c4hist.extended_freeze_alerts.getD [], ∀ dt : PyDatetime,
              fromisoformat (replaceZ (splitHead k)) = Except.ok dt → dt.utcoffset = none →
                c4now - 14 * 86400 < dt.ts →
                  k ∈ (⟨none, none, some ["2024-10-22T00:00:00_3"]⟩ : History).extended_freeze_alerts.getD [])) :=
  ⟨by decide,
   c4_prune_retains_recent_drops_old c4now [] c4hist []
     ⟨none, none, some ["2024-10-22T00:00:00_3"]⟩ (by decide)⟩

/-! ## Claim C5 -/

theorem alert_index_lt_of_partition {L M : List Alert} {i j : Nat}
    (hi : i < (L ++ M).length) (hj : j < (L ++ M).length)
    (hM : ∀ a ∈ M, a.type ≠ "FIRST FROST")
    (hL : ∀ a ∈ L, a.type ≠ "SECOND FROST")
    (hFi : ((L ++ M).get ⟨i, hi⟩).type = "FIRST FROST")
    (hSj : ((L ++ M).get ⟨j, hj⟩).type = "SECOND FROST") :
    i < j := by
  have hiL : i < L.length := by
    by_contra hcon
    push_neg at hcon
    have hm : (L ++ M).get ⟨i, hi⟩ ∈ M := by
      rw [List.get_eq_getElem, List.getElem_append_right hcon]
      exact List.getElem_mem _
    exact hM _ hm hFi
  have hjL : ¬ j < L.length := by
    intro hcon
    have hm : (L ++ M).get ⟨j, hj⟩ ∈ L := by
      rw [List.get_eq_getElem, List.getElem_append_left hcon]
      exact List.getElem_mem _
    exact hL _ hm hSj
  omega

theorem mem_firstAlertsOf {fs : List FreezeEvent} {h : History} {a : Alert}
    (ha : a ∈ firstAlertsOf fs h) : a.type = "FIRST FROST" := by
  unfold firstAlertsOf at ha
  match fs, ha with
  | e :: rest, ha =>
    by_cases ht : truthy h.first_frost_alerted
    · simp [ht] at ha
    · simp [ht] at ha
      subst ha
      rfl

theorem mem_secondAlertsOf {fs : List FreezeEvent} {h : History} {a : Alert}
    (ha : a ∈ secondAlertsOf fs h) : a.type = "SECOND FROST" := by
  unfold secondAlertsOf at ha
  match fs, ha with
  | e1 :: e2 :: rest, ha =>
    by_cases ht : truthy h.second_frost_alerted
    · simp [ht] at ha
    · simp [ht] at ha
      subst ha
      rfl

/-- C5: a completed run emits a FIRST FROST alert iff a first-frost
candidate exists and `first_frost_alerted` is unset (falsy: absent, null
or `""`), in which case the field is set to that candidate's start time
and the alert carries that candidate; likewise SECOND FROST with the
second candidate; and every FIRST FROST alert precedes every SECOND FROST
alert in the output list. -/
theorem c5_first_second_frost_emission (now : Int) (ps : List Period) (h0 : History)
    (alerts : List Alert) (h' : History) (evs fs xs : List FreezeEvent)
    (hs : scanForecast ps = Except.ok (evs, fs, xs))
    (hr : check_freezing_conditions now ps h0 = Except.ok (alerts, h')) :
    ((∃ a ∈ alerts, a.type = "FIRST FROST")
        ↔ (fs ≠ [] ∧ ¬ truthy h0.first_frost_alerted))
      ∧ ((∃ a ∈ alerts, a.type = "SECOND FROST")
          ↔ (1 < fs.length ∧ ¬ truthy h0.second_frost_alerted))
      ∧ (∀ e1 rest, fs = e1 :: rest → ¬ truthy h0.first_frost_alerted →
          h'.first_frost_alerted = some e1.start_time ∧ mkFirstFrostAlert e1 ∈ alerts)
      ∧ (∀ e1 e2 rest, fs = e1 :: e2 :: rest → ¬ truthy h0.second_frost_alerted →
          h'.second_frost_alerted = some e2.start_time ∧ mkSecondFrostAlert e2 ∈ alerts)
      ∧ (∀ i j : Nat, ∀ hi : i < alerts.length, ∀ hj : j < alerts.length,
          (alerts.get ⟨i, hi⟩).type = "FIRST FROST" →
          (alerts.get ⟨j, hj⟩).type = "SECOND FROST" → i < j) := by
  obtain ⟨evs', fs', xs', hs', hp⟩ := check_ok_elim hr
  rw [hs] at hs'
  simp only [Except.ok.injEq, Prod.mk.injEq] at hs'
  obtain ⟨h1, h2, h3⟩ := hs'
  subst h1; subst h2; subst h3
  have hspec := emitPhase_spec fs xs h0
  obtain ⟨ha, hf, hsec, _⟩ := prunePhase_ok_elim hp
  have halerts : alerts =
      firstAlertsOf fs h0 ++ (secondAlertsOf fs h0
        ++ ((extendedSpec (h0.extended_freeze_alerts.getD []) xs).1).map mkExtendedFreezeAlert) := by
    rw [ha, hspec.1, List.append_assoc]
  subst halerts
  have hMne : ∀ a ∈ secondAlertsOf fs h0
      ++ ((extendedSpec (h0.extended_freeze_alerts.getD []) xs).1).map mkExtendedFreezeAlert,
      a.type ≠ "FIRST FROST" := by
    intro a hmem
    rcases List.mem_append.mp hmem with hm | hm
    · rw [mem_secondAlertsOf hm]; decide
    · obtain ⟨e, _, rfl⟩ := List.mem_map.mp hm
      show "EXTENDED FREEZE" ≠ "FIRST FROST"
      decide
  have hLne : ∀ a ∈ firstAlertsOf fs h0, a.type ≠ "SECOND FROST" := by
    intro a hmem
    rw [mem_firstAlertsOf hmem]; decide
  refine ⟨?_, ?_, ?_, ?_, ?_⟩
  · constructor
    · rintro ⟨a, hmem, htype⟩
      rcases List.mem_append.mp hmem with hm | hm
      · unfold firstAlertsOf at hm
        match fs, hm with
        | e :: rest, hm =>
          by_cases ht : truthy h0.first_frost_alerted
          · simp [ht] at hm
          · exact ⟨by simp, ht⟩
      · exact absurd htype (hMne a hm)
    · rintro ⟨hne, ht⟩
      match fs, hne with
      | e :: rest, _ =>
        refine ⟨mkFirstFrostAlert e, ?_, rfl⟩
        apply List.mem_append.mpr
        left
        simp [firstAlertsOf, ht]
  · constructor
    · rintro ⟨a, hmem, htype⟩
      rcases List.mem_append.mp hmem with hm | hm
      · exact absurd htype (hLne a hm)
      rcases List.mem_append.mp hm with hm' | hm'
      · unfold secondAlertsOf at hm'
        match fs, hm' with
        | e1 :: e2 :: rest, hm' =>
          by_cases ht : truthy h0.second_frost_alerted
          · simp [ht] at hm'
          · exact ⟨by simp, ht⟩
      · obtain ⟨e, _, rfl⟩ := List.mem_map.mp hm'
        exact absurd htype (by show "EXTENDED FREEZE" ≠ "SECOND FROST"; decide)
    · rintro ⟨hlen, ht⟩
      match fs, hlen with
      | e1 :: e2 :: rest, _ =>
        refine ⟨mkSecondFrostAlert e2, ?_, rfl⟩
        apply List.mem_append.mpr
        right
        apply List.mem_append.mpr
        left
        simp [secondAlertsOf, ht]
  · intro e1 rest hfs ht
    subst hfs
    constructor
    · rw [hf, hspec.2.1]
      simp [firstFieldOf, ht]
    · apply List.mem_append.mpr
      left
      simp [firstAlertsOf, ht]
  · intro e1 e2 rest hfs ht
    subst hfs
    constructor
    · rw [hsec, hspec.2.2.1]
      simp [secondFieldOf, ht]
    · apply List.mem_append.mpr
      right
      apply List.mem_append.mpr
      left
      simp [secondAlertsOf, ht]
  · intro i j hi hj hFi hSj
    exact alert_index_lt_of_partition hi hj hMne hLne hFi hSj

def c5h0 : History := ⟨none, none, none⟩

def c5alerts : List Alert := [mkFirstFrostAlert c2e1, mkSecondFrostAlert c2e3]

def c5hist : History :=
  ⟨some "2024-11-01T00:00:00", some "2024-11-02T01:00:00", none⟩

theorem c5_witness :
    scanForecast c2ps = Except.ok ([c2e1, c2e2, c2e3], [c2e1, c2e3], [])
      ∧ check_freezing_conditions 0 c2ps c5h0 = Except.ok (c5alerts, c5hist)
      ∧ (((∃ a ∈ c5alerts, a.type = "FIRST FROST")
            ↔ ([c2e1, c2e3] ≠ [] ∧ ¬ truthy c5h0.first_frost_alerted))
          ∧ ((∃ a ∈ c5alerts, a.type = "SECOND FROST")
              ↔ (1 < ([c2e1, c2e3] : List FreezeEvent).length
                  ∧ ¬ truthy c5h0.second_frost_alerted))
          ∧ (∀ e1 rest, ([c2e1, c2e3] : List FreezeEvent) = e1 :: rest →
              ¬ truthy c5h0.first_frost_alerted →
                c5hist.first_frost_alerted = some e1.start_time
                  ∧ mkFirstFrostAlert e1 ∈ c5alerts)
          ∧ (∀ e1 e2 rest, ([c2e1, c2e3] : List FreezeEvent) = e1 :: e2 :: rest →
              ¬ truthy c5h0.second_frost_alerted →
                c5hist.second_frost_alerted = some e2.start_time
                  ∧ mkSecondFrostAlert e2 ∈ c5alerts)
          ∧ (∀ i j : Nat, ∀ hi : i < c5alerts.length, ∀ hj : j < c5alerts.length,
              (c5alerts.get ⟨i, hi⟩).type = "FIRST FROST" →
              (c5alerts.get ⟨j, hj⟩).type = "SECOND FROST" → i < j)) :=
  ⟨by decide, by decide,
   c5_first_second_frost_emission 0 c2ps c5h0 c5alerts c5hist
     [c2e1, c2e2, c2e3] [c2e1, c2e3] [] (by decide) (by decide)⟩

/-! ## Claim C6 -/

/-- C6: the extended-freeze candidates are exactly the freeze events with
`duration_hours > 1`, in scan order, independently of the first/second
frost classification (the filter is over *all* events); the EXTENDED
FREEZE alerts of a completed run are exactly those predicted by the spec's
rule (`extendedSpec`): one alert per candidate, in order, iff its key
`start_time ++ "_" ++ duration_hours` is not already present in the
(progressively extended) `extended_freeze_alerts` list, each emitted key
being appended (`emitPhase` output; the later 14-day prune is claim
C4's). -/
theorem c6_extended_freeze_emission (now : Int) (ps : List Period) (h0 : History)
    (alerts : List Alert) (h' : History) (evs fs xs : List FreezeEvent)
    (hs : scanForecast ps = Except.ok (evs, fs, xs))
    (hr : check_freezing_conditions now ps h0 = Except.ok (alerts, h')) :
    xs = evs.filter (fun e => 1 < e.duration_hours)
      ∧ (∃ firstPart : List Alert,
          alerts = firstPart
              ++ ((extendedSpec (h0.extended_freeze_alerts.getD []) xs).1).map
                mkExtendedFreezeAlert
            ∧ ∀ a ∈ firstPart, a.type ≠ "EXTENDED FREEZE")
      ∧ (emitPhase fs xs h0).2.extended_freeze_alerts.getD [] =
          (extendedSpec (h0.extended_freeze_alerts.getD []) xs).2 := by
  obtain ⟨new, h1, h2, h3⟩ := scanLoop_decomp ps.length ps [] [] [] evs fs xs hs
  simp only [List.nil_append] at h1 h3
  subst h1
  refine ⟨h3, ?_, (emitPhase_spec fs xs h0).2.2.2⟩
  obtain ⟨evs', fs', xs', hs', hp⟩ := check_ok_elim hr
  rw [hs] at hs'
  simp only [Except.ok.injEq, Prod.mk.injEq] at hs'
  obtain ⟨g1, g2, g3⟩ := hs'
  subst g1; subst g2; subst g3
  have hspec := emitPhase_spec fs xs h0
  obtain ⟨ha, _, _, _⟩ := prunePhase_ok_elim hp
  refine ⟨firstAlertsOf fs h0 ++ secondAlertsOf fs h0, ?_, ?_⟩
  · rw [ha, hspec.1]
  · intro a hmem
    rcases List.mem_append.mp hmem with hm | hm
    · rw [mem_firstAlertsOf hm]; decide
    · rw [mem_secondAlertsOf hm]; decide

/-- Two extended freezes an hour pattern apart; the first is also the
first-frost candidate, the second's key is already in history. -/
def c6ps : List Period :=
  [⟨some "2024-11-01T00:00:00", some (.num 30)⟩,
   ⟨some "2024-11-01T01:00:00", some (.num 30)⟩,
   ⟨some "2024-11-01T02:00:00", some (.num 40)⟩,
   ⟨some "2024-11-01T03:00:00", some (.num 28)⟩,
   ⟨some "2024-11-01T04:00:00", some (.num 28)⟩]

def c6e1 : FreezeEvent := ⟨"2024-11-01T00:00:00", 2, 30⟩
def c6e2 : FreezeEvent := ⟨"2024-11-01T03:00:00", 2, 28⟩

def c6h0 : History := ⟨none, none, some ["2024-11-01T03:00:00_2"]⟩

def c6now : Int := (daysFromCivil 2024 11 4 : Int) * 86400

def c6alerts : List Alert := [mkFirstFrostAlert c6e1, mkExtendedFreezeAlert c6e1]

def c6hist : History :=
  ⟨some "2024-11-01T00:00:00", none,
   some ["2024-11-01T03:00:00_2", "2024-11-01T00:00:00_2"]⟩

theorem c6_witness :
    scanForecast c6ps = Except.ok ([c6e1, c6e2], [c6e1], [c6e1, c6e2])
      ∧ check_freezing_conditions c6now c6ps c6h0 = Except.ok (c6alerts, c6hist)
      ∧ (([c6e1, c6e2] : List FreezeEvent) =
            ([c6e1, c6e2] : List FreezeEvent).filter (fun e => 1 < e.duration_hours)
          ∧ (∃ firstPart : List Alert,
              c6alerts = firstPart
                  ++ ((extendedSpec (c6h0.extended_freeze_alerts.getD [])
                    [c6e1, c6e2]).1).map mkExtendedFreezeAlert
                ∧ ∀ a ∈ firstPart, a.type ≠ "EXTENDED FREEZE")
          ∧ (emitPhase [c6e1] [c6e1, c6e2] c6h0).2.extended_freeze_alerts.getD [] =
              (extendedSpec (c6h0.extended_freeze_alerts.getD []) [c6e1, c6e2]).2) :=
  ⟨by decide, by decide,
   c6_extended_freeze_emission c6now c6ps c6h0 c6alerts c6hist
     [c6e1, c6e2] [c6e1] [c6e1, c6e2] (by decide) (by decide)⟩

/-! ## Claim C7 -/

theorem check_ok_spec {now : Int} {ps : List Period} {h0 : History}
    {alerts : List Alert} {h' : History} {evs fs xs : List FreezeEvent}
    (hs : scanForecast ps = Except.ok (evs, fs, xs))
    (hr : check_freezing_conditions now ps h0 = Except.ok (alerts, h')) :
    alerts = firstAlertsOf fs h0 ++ secondAlertsOf fs h0
        ++ ((extendedSpec (h0.extended_freeze_alerts.getD []) xs).1).map mkExtendedFreezeAlert
      ∧ h'.first_frost_alerted = firstFieldOf fs h0
      ∧ h'.second_frost_alerted = secondFieldOf fs h0 := by
  obtain ⟨evs', fs', xs', hs', hp⟩ := check_ok_elim hr
  rw [hs] at hs'
  simp only [Except.ok.injEq, Prod.mk.injEq] at hs'
  obtain ⟨g1, g2, g3⟩ := hs'
  subst g1; subst g2; subst g3
  have hspec := emitPhase_spec fs xs h0
  obtain ⟨ha, hf, hsec, _⟩ := prunePhase_ok_elim hp
  exact ⟨by rw [ha, hspec.1], by rw [hf, hspec.2.1], by rw [hsec, hspec.2.2.1]⟩

/-- A forecast whose single freezing sample has no `startTime`. -/
def c7ps : List Period := [⟨none, some (.num 30)⟩]

def c7ev : FreezeEvent := ⟨"", 1, 30⟩

/-- C7 counterexample: running twice on `c7ps` starting from an empty
history emits FIRST FROST in *both* runs — run 1 stores
`first_frost_alerted = ""`, which is falsy, so run 2 treats it as unset
(the claim promises no duplicate FIRST FROST for every sample sequence and
initial history). -/
theorem c7_counterexample :
    check_freezing_conditions 0 c7ps ⟨none, none, none⟩ =
        Except.ok ([mkFirstFrostAlert c7ev], ⟨some "", none, none⟩)
      ∧ check_freezing_conditions 0 c7ps ⟨some "", none, none⟩ =
          Except.ok ([mkFirstFrostAlert c7ev], ⟨some "", none, none⟩)
      ∧ (mkFirstFrostAlert c7ev).type = "FIRST FROST" := by decide

/-- C7 amended: a second run on the same samples emits no duplicate FIRST
(resp. SECOND) FROST when the alert emitted by run 1 has a non-empty
(truthy) start_time, and no duplicate EXTENDED FREEZE for any key that is
still present in run 1's resulting history (i.e. survived the 14-day
prune). -/
theorem c7_idempotent_for_truthy_surviving_alerts
    (now1 now2 : Int) (ps : List Period) (h0 h1 h2 : History)
    (a1 a2 : List Alert)
    (r1 : check_freezing_conditions now1 ps h0 = Except.ok (a1, h1))
    (r2 : check_freezing_conditions now2 ps h1 = Except.ok (a2, h2)) :
    ((∃ al ∈ a1, al.type = "FIRST FROST" ∧ al.event.start_time ≠ "") →
        ∀ al ∈ a2, al.type ≠ "FIRST FROST")
      ∧ ((∃ al ∈ a1, al.type = "SECOND FROST" ∧ al.event.start_time ≠ "") →
          ∀ al ∈ a2, al.type ≠ "SECOND FROST")
      ∧ (∀ k : String, (∃ al ∈ a1, al.type = "EXTENDED FREEZE" ∧ keyOf al.event = k) →
          k ∈ h1.extended_freeze_alerts.getD [] →
          ∀ al ∈ a2, al.type = "EXTENDED FREEZE" → keyOf al.event ≠ k) := by
  obtain ⟨evs, fs, xs, hs, _⟩ := check_ok_elim r1
  obtain ⟨ha1, hf1, hsec1⟩ := check_ok_spec hs r1
  obtain ⟨ha2, hf2, hsec2⟩ := check_ok_spec hs r2
  refine ⟨?_, ?_, ?_⟩
  · rintro ⟨al, hmem, htype, hne⟩ al2 hmem2 htype2
    rw [ha1] at hmem
    rcases List.mem_append.mp hmem with hm | hm
    rcases List.mem_append.mp hm with hm' | hm'
    · -- al is the run-1 FIRST FROST alert
      unfold firstAlertsOf at hm'
      match fs, hm' with
      | e :: rest, hm' =>
        by_cases ht : truthy h0.first_frost_alerted
        · simp [ht] at hm'
        · simp [ht] at hm'
          subst hm'
          have hset : h1.first_frost_alerted = some e.start_time := by
            rw [hf1]; simp [firstFieldOf, ht]
          have htr : truthy h1.first_frost_alerted := by
            rw [hset]
            simpa [truthy] using hne
          rw [ha2] at hmem2
          rcases List.mem_append.mp hmem2 with hn | hn
          rcases List.mem_append.mp hn with hn' | hn'
          · unfold firstAlertsOf at hn'
            match hn' with
            | hn' => simp [htr] at hn'
          · exact absurd (mem_secondAlertsOf hn') (by rw [htype2]; decide)
          · obtain ⟨e', _, rfl⟩ := List.mem_map.mp hn
            simp [mkExtendedFreezeAlert] at htype2
    · exact absurd (mem_secondAlertsOf hm') (by rw [htype]; decide)
    · obtain ⟨e', _, rfl⟩ := List.mem_map.mp hm
      simp [mkExtendedFreezeAlert] at htype
  · rintro ⟨al, hmem, htype, hne⟩ al2 hmem2 htype2
    rw [ha1] at hmem
    rcases List.mem_append.mp hmem with hm | hm
    rcases List.mem_append.mp hm with hm' | hm'
    · exact absurd (mem_firstAlertsOf hm') (by rw [htype]; decide)
    · unfold secondAlertsOf at hm'
      match fs, hm' with
      | e1 :: e :: rest, hm' =>
        by_cases ht : truthy h0.second_frost_alerted
        · simp [ht] at hm'
        · simp [ht] at hm'
          subst hm'
          have hset : h1.second_frost_alerted = some e.start_time := by
            rw [hsec1]; simp [secondFieldOf, ht]
          have htr : truthy h1.second_frost_alerted := by
            rw [hset]
            simpa [truthy] using hne
          rw [ha2] at hmem2
          rcases List.mem_append.mp hmem2 with hn | hn
          rcases List.mem_append.mp hn with hn' | hn'
          · exact absurd (mem_firstAlertsOf hn') (by rw [htype2]; decide)
          · unfold secondAlertsOf at hn'
            match hn' with
            | hn' => simp [htr] at hn'
          · obtain ⟨e', _, rfl⟩ := List.mem_map.mp hn
            simp [mkExtendedFreezeAlert] at htype2
    · obtain ⟨e', _, rfl⟩ := List.mem_map.mp hm
      simp [mkExtendedFreezeAlert] at htype
  · rintro k ⟨al, hmem, htype, hkey⟩ hk al2 hmem2 htype2
    rw [ha2] at hmem2
    rcases List.mem_append.mp hmem2 with hn | hn
    rcases List.mem_append.mp hn with hn' | hn'
    · exact absurd (mem_firstAlertsOf hn') (by rw [htype2]; decide)
    · exact absurd (mem_secondAlertsOf hn') (by rw [htype2]; decide)
    · obtain ⟨e', he', rfl⟩ := List.mem_map.mp hn
      have hnotmem := extendedSpec_emitted_not_mem xs (h1.extended_freeze_alerts.getD []) e' he'
      intro heq
      apply hnotmem
      have : keyOf e' = k := heq
      rw [this]
      exact hk

theorem c7_witness :
    check_freezing_conditions 0 c2ps c5h0 = Except.ok (c5alerts, c5hist)
      ∧ check_freezing_conditions 0 c2ps c5hist = Except.ok ([], c5hist)
      ∧ (((∃ al ∈ c5alerts, al.type = "FIRST FROST" ∧ al.event.start_time ≠ "") →
            ∀ al ∈ ([] : List Alert), al.type ≠ "FIRST FROST")
          ∧ ((∃ al ∈ c5alerts, al.type = "SECOND FROST" ∧ al.event.start_time ≠ "") →
              ∀ al ∈ ([] : List Alert), al.type ≠ "SECOND FROST")
          ∧ (∀ k : String,
              (∃ al ∈ c5alerts, al.type = "EXTENDED FREEZE" ∧ keyOf al.event = k) →
              k ∈ c5hist.extended_freeze_alerts.getD [] →
              ∀ al ∈ ([] : List Alert), al.type = "EXTENDED FREEZE" → keyOf al.event ≠ k)) :=
  ⟨by decide, by decide,
   c7_idempotent_for_truthy_surviving_alerts 0 0 c2ps c5h0 c5hist c5hist
     c5alerts [] (by decide) (by decide)⟩

/-! ## Claim C8 -/

def c8ps : List Period := [⟨some "2024-11-01T00:00:00", some (.num 30)⟩]

def c8ev : FreezeEvent := ⟨"2024-11-01T00:00:00", 1, 30⟩

/-- C8 counterexample: the claim says a non-null `first_frost_alerted` is
never overwritten.  But `""` is non-null yet falsy, so with
`first_frost_alerted = ""` the run overwrites it with the new candidate's
start time. -/
theorem c8_counterexample :
    check_freezing_conditions 0 c8ps ⟨some "", none, none⟩ =
        Except.ok ([mkFirstFrostAlert c8ev], ⟨some "2024-11-01T00:00:00", none, none⟩)
      ∧ (some "" : Option String) ≠ some "2024-11-01T00:00:00" := by decide

/-- C8 amended: once `first_frost_alerted` (resp. `second_frost_alerted`)
holds a *truthy* (non-null, non-empty) value, the run never resets or
overwrites it, regardless of the sample sequence. -/
theorem c8_truthy_fields_never_overwritten
    (now : Int) (ps : List Period) (h0 h' : History) (alerts : List Alert)
    (hr : check_freezing_conditions now ps h0 = Except.ok (alerts, h')) :
    (truthy h0.first_frost_alerted → h'.first_frost_alerted = h0.first_frost_alerted)
      ∧ (truthy h0.second_frost_alerted →
          h'.second_frost_alerted = h0.second_frost_alerted) := by
  obtain ⟨evs, fs, xs, hs, hp⟩ := check_ok_elim hr
  have hspec := emitPhase_spec fs xs h0
  obtain ⟨_, hf, hsec, _⟩ := prunePhase_ok_elim hp
  constructor
  · intro ht
    rw [hf, hspec.2.1]
    rcases fs with _ | ⟨e, rest⟩
    · rfl
    · simp [firstFieldOf, ht]
  · intro ht
    rw [hsec, hspec.2.2.1]
    rcases fs with _ | ⟨e1, _ | ⟨e2, rest⟩⟩
    · rfl
    · rfl
    · simp [secondFieldOf, ht]

def c8hist : History := ⟨some "2024-10-01T00:00:00", some "2024-10-02T00:00:00", none⟩

theorem c8_witness :
    truthy c8hist.first_frost_alerted
      ∧ truthy c8hist.second_frost_alerted
      ∧ check_freezing_conditions 0 c8ps c8hist = Except.ok ([], c8hist)
      ∧ ((truthy c8hist.first_frost_alerted →
            c8hist.first_frost_alerted = c8hist.first_frost_alerted)
          ∧ (truthy c8hist.second_frost_alerted →
              c8hist.second_frost_alerted = c8hist.second_frost_alerted)) :=
  ⟨by decide, by decide, by decide,
   c8_truthy_fields_never_overwritten 0 c8ps c8hist c8hist [] (by decide)⟩

/-! ## Claim C9 -/

/-- C9: if, when a candidate second-frost event is compared against the
first frost, either start_time fails to parse, the scan does not abort and
the bare `except` treats the candidate as qualifying: it is recorded as
the second-frost candidate. -/
theorem c9_parse_failure_fail_open (ps : List Period)
    (evs fs xs : List FreezeEvent) (e1 e2 : FreezeEvent) (rest : List FreezeEvent)
    (hs : scanForecast ps = Except.ok (evs, fs, xs))
    (hevs : evs = e1 :: e2 :: rest)
    (hfail : (fromisoformat (replaceZ e1.start_time)).isOk = false
        ∨ (fromisoformat (replaceZ e2.start_time)).isOk = false) :
    secondFrostQualifies e1.start_time e2.start_time = true ∧ fs = [e1, e2] := by
  have hq : secondFrostQualifies e1.start_time e2.start_time = true := by
    unfold secondFrostQualifies
    cases hp1 : fromisoformat (replaceZ e1.start_time) with
    | error e =>
      cases hp2 : fromisoformat (replaceZ e2.start_time) with
      | error e' => rfl
      | ok d2 => rfl
    | ok d1 =>
      cases hp2 : fromisoformat (replaceZ e2.start_time) with
      | error e' => rfl
      | ok d2 =>
        rcases hfail with hf | hf
        · rw [hp1] at hf; simp [Except.isOk, Except.toBool] at hf
        · rw [hp2] at hf; simp [Except.isOk, Except.toBool] at hf
  refine ⟨hq, ?_⟩
  obtain ⟨new, h1, h2, _⟩ := scanLoop_decomp ps.length ps [] [] [] evs fs xs hs
  simp only [List.nil_append] at h1
  subst h1
  rw [h2, foldl_frostExtend_nil, hevs]
  simp [frostSpec, List.find?_cons, hq]

/-- Samples whose first freezing hour lacks `startTime` (so its event's
start_time is `""`, which does not parse) followed by a warm hour and a
freezing hour one hour later (far less than 24h). -/
def c9ps : List Period :=
  [⟨none, some (.num 30)⟩,
   ⟨some "2024-11-01T01:00:00", some (.num 40)⟩,
   ⟨some "2024-11-01T02:00:00", some (.num 30)⟩]

def c9e1 : FreezeEvent := ⟨"", 1, 30⟩
def c9e2 : FreezeEvent := ⟨"2024-11-01T02:00:00", 1, 30⟩

theorem c9_witness :
    scanForecast c9ps = Except.ok ([c9e1, c9e2], [c9e1, c9e2], [])
      ∧ (fromisoformat (replaceZ c9e1.start_time)).isOk = false
      ∧ (secondFrostQualifies c9e1.start_time c9e2.start_time = true
          ∧ [c9e1, c9e2] = [c9e1, c9e2]) :=
  ⟨by decide, by decide,
   c9_parse_failure_fail_open c9ps [c9e1, c9e2] [c9e1, c9e2] [] c9e1 c9e2 []
     (by decide) rfl (Or.inl (by decide))⟩

/-! ## Claim C10 -/

/-- C10: the duplicate-suppression checks test truthiness, not null.  If
the first frost candidate's start_time is the empty string (which is what
the scan records when the sample lacks a `startTime` field, cf. C1) and
`first_frost_alerted` is falsy, run 1 emits FIRST FROST and stores
`first_frost_alerted = ""`; since `""` is falsy, a second run on the
resulting history treats the field as unset and emits FIRST FROST again —
and likewise for the second frost. -/
theorem c10_truthiness_rearm
    (now1 now2 : Int) (ps : List Period) (h0 h1 h2 : History)
    (a1 a2 : List Alert) (evs fs xs : List FreezeEvent)
    (hs : scanForecast ps = Except.ok (evs, fs, xs))
    (r1 : check_freezing_conditions now1 ps h0 = Except.ok (a1, h1))
    (r2 : check_freezing_conditions now2 ps h1 = Except.ok (a2, h2)) :
    (∀ e1 rest, fs = e1 :: rest → e1.start_time = "" →
        ¬ truthy h0.first_frost_alerted →
        mkFirstFrostAlert e1 ∈ a1 ∧ h1.first_frost_alerted = some ""
          ∧ (∃ al ∈ a2, al.type = "FIRST FROST"))
      ∧ (∀ e1 e2 rest, fs = e1 :: e2 :: rest → e2.start_time = "" →
          ¬ truthy h0.second_frost_alerted →
          mkSecondFrostAlert e2 ∈ a1 ∧ h1.second_frost_alerted = some ""
            ∧ (∃ al ∈ a2, al.type = "SECOND FROST")) := by
  obtain ⟨ha1, hf1, hsec1⟩ := check_ok_spec hs r1
  obtain ⟨ha2, hf2, hsec2⟩ := check_ok_spec hs r2
  constructor
  · intro e1 rest hfs hstart ht
    subst hfs
    have hset : h1.first_frost_alerted = some "" := by
      rw [hf1]
      simp [firstFieldOf, ht, hstart]
    refine ⟨?_, hset, ?_⟩
    · rw [ha1]
      apply List.mem_append.mpr
      left
      apply List.mem_append.mpr
      left
      simp [firstAlertsOf, ht]
    · have ht2 : ¬ truthy h1.first_frost_alerted := by
        rw [hset]
        simp [truthy]
      refine ⟨mkFirstFrostAlert e1, ?_, rfl⟩
      rw [ha2]
      apply List.mem_append.mpr
      left
      apply List.mem_append.mpr
      left
      simp [firstAlertsOf, ht2]
  · intro e1 e2 rest hfs hstart ht
    subst hfs
    have hset : h1.second_frost_alerted = some "" := by
      rw [hsec1]
      simp [secondFieldOf, ht, hstart]
    refine ⟨?_, hset, ?_⟩
    · rw [ha1]
      apply List.mem_append.mpr
      left
      apply List.mem_append.mpr
      right
      simp [secondAlertsOf, ht]
    · have ht2 : ¬ truthy h1.second_frost_alerted := by
        rw [hset]
        simp [truthy]
      refine ⟨mkSecondFrostAlert e2, ?_, rfl⟩
      rw [ha2]
      apply List.mem_append.mpr
      left
      apply List.mem_append.mpr
      right
      simp [secondAlertsOf, ht2]

/-- Two freezing samples lacking `startTime`, separated by a warm one. -/
def c10ps : List Period :=
  [⟨none, some (.num 30)⟩,
   ⟨some "2024-11-01T01:00:00", some (.num 40)⟩,
   ⟨none, some (.num 30)⟩]

def c10ev : FreezeEvent := ⟨"", 1, 30⟩

def c10a : List Alert := [mkFirstFrostAlert c10ev, mkSecondFrostAlert c10ev]

def c10hist : History := ⟨some "", some "", none⟩

theorem c10_witness :
    scanForecast c10ps = Except.ok ([c10ev, c10ev], [c10ev, c10ev], [])
      ∧ check_freezing_conditions 0 c10ps ⟨none, none, none⟩ = Except.ok (c10a, c10hist)
      ∧ check_freezing_conditions 0 c10ps c10hist = Except.ok (c10a, c10hist)
      ∧ ((∀ e1 rest, ([c10ev, c10ev] : List FreezeEvent) = e1 :: rest →
            e1.start_time = "" →
            ¬ truthy (⟨none, none, none⟩ : History).first_frost_alerted →
            mkFirstFrostAlert e1 ∈ c10a ∧ c10hist.first_frost_alerted = some ""
              ∧ (∃ al ∈ c10a, al.type = "FIRST FROST"))
          ∧ (∀ e1 e2 rest, ([c10ev, c10ev] : List FreezeEvent) = e1 :: e2 :: rest →
              e2.start_time = "" →
              ¬ truthy (⟨none, none, none⟩ : History).second_frost_alerted →
              mkSecondFrostAlert e2 ∈ c10a ∧ c10hist.second_frost_alerted = some ""
                ∧ (∃ al ∈ c10a, al.type = "SECOND FROST"))) :=
  ⟨by decide, by decide, by decide,
   c10_truthiness_rearm 0 0 c10ps ⟨none, none, none⟩ c10hist c10hist
     c10a c10a [c10ev, c10ev] [c10ev, c10ev] [] (by decide) (by decide) (by decide)⟩

end FreezeAlert
